import Mathlib

/-!
Verification of the filter/transform engine of the `dcm` repository
(`src/dcm/filt.py`) against its natural-language specification.

The engine's collaborators (`lazyset.py` capability sets and the `query.py`
hierarchical collection) are not part of the available source tree; they are
modelled from the specification's data-model and external-interface sections
and marked `Modelled from the spec:` below.  Everything else is a direct
shallow embedding of `filt.py`.
-/

set_option autoImplicit false

namespace Dcm

/-- Modelled from the spec: a capability set over the open-ended universe of
attribute identifiers is either an explicit finite set, or "all identifiers
except a finite set of exclusions" (`AllElems` is `cofin ∅`; the sentinel
absorbs unions, and difference against a finite set keeps track of the
excluded elements). -/
inductive LazySet where
  | fin (elems : Finset String)
  | cofin (excluded : Finset String)
deriving DecidableEq

namespace LazySet

/-- Modelled from the spec: union of capability sets; the sentinel absorbs. -/
def union : LazySet → LazySet → LazySet
  | fin a, fin b => fin (a ∪ b)
  | fin a, cofin e => cofin (e \ a)
  | cofin e, fin a => cofin (e \ a)
  | cofin e, cofin f => cofin (e ∩ f)

/-- Modelled from the spec: intersection; intersecting with the sentinel
returns the other operand. -/
def inter : LazySet → LazySet → LazySet
  | fin a, fin b => fin (a ∩ b)
  | fin a, cofin e => fin (a \ e)
  | cofin e, fin a => fin (a \ e)
  | cofin e, cofin f => cofin (e ∪ f)

/-- Modelled from the spec: difference; the universe minus a finite set
yields the finite complement, and a finite set minus the sentinel keeps
only the sentinel's exclusions. -/
def diff : LazySet → LazySet → LazySet
  | fin a, fin b => fin (a \ b)
  | fin a, cofin e => fin (a ∩ e)
  | cofin e, fin b => cofin (e ∪ b)
  | cofin e, cofin f => fin (f \ e)

/-- Modelled from the spec: membership test. -/
def contains : LazySet → String → Bool
  | fin a, x => decide (x ∈ a)
  | cofin e, x => decide (x ∉ e)

/-- Modelled from the spec: emptiness test (the universe of attribute names
is open-ended, so a co-finite set is never empty); this is the Python
truthiness of a `LazySet`. -/
def isEmpty : LazySet → Bool
  | fin a => decide (a = ∅)
  | cofin _ => false

/-- Modelled from the spec: containment test between capability sets. -/
def subsetOf : LazySet → LazySet → Bool
  | fin a, fin b => decide (a ⊆ b)
  | fin a, cofin e => decide (a ∩ e = ∅)
  | cofin _, fin _ => false
  | cofin e, cofin f => decide (f ⊆ e)

/-- The empty capability set (`LazySet()` in Python). -/
def empty : LazySet := fin ∅

/-- The sentinel "all identifiers" set (`AllElems`). -/
def allElems : LazySet := cofin ∅

theorem contains_union (a b : LazySet) (x : String) :
    (a.union b).contains x = (a.contains x || b.contains x) := by
  cases a <;> cases b <;>
    simp [union, contains, Finset.mem_union, Finset.mem_sdiff, Finset.mem_inter,
      decide_not] <;>
    rename_i s t <;> by_cases hx : x ∈ s <;> by_cases hy : x ∈ t <;> simp [hx, hy]

theorem contains_diff (a b : LazySet) (x : String) :
    (a.diff b).contains x = (a.contains x && !(b.contains x)) := by
  cases a <;> cases b <;>
    simp [diff, contains, Finset.mem_union, Finset.mem_sdiff, Finset.mem_inter,
      decide_not] <;>
    rename_i s t <;> by_cases hx : x ∈ s <;> by_cases hy : x ∈ t <;> simp [hx, hy]

theorem contains_empty (x : String) : empty.contains x = false := by
  simp [empty, contains]

theorem isEmpty_subsetOf (a b : LazySet) (h : a.isEmpty = true) :
    a.subsetOf b = true := by
  cases a with
  | fin s =>
      have hs : s = ∅ := by simpa [isEmpty] using h
      cases b <;> simp [subsetOf, hs]
  | cofin e => simp [isEmpty] at h

theorem subsetOf_union_right (a b : LazySet) : a.subsetOf (b.union a) = true := by
  cases a <;> cases b <;>
    simp [subsetOf, union, Finset.subset_union_right, Finset.inter_subset_right,
      Finset.sdiff_subset, Finset.inter_sdiff_self]

end LazySet

/-- Modelled from the spec: the four hierarchy levels, ordered from coarsest
(`patient`) to finest (`image`), as in the collaborator's `QueryLevel`
integer enumeration. -/
inductive QueryLevel where
  | patient
  | study
  | series
  | image
deriving DecidableEq

namespace QueryLevel

/-- Depth of a hierarchy level (coarsest = 0). -/
def toNat : QueryLevel → Nat
  | patient => 0
  | study => 1
  | series => 2
  | image => 3

/-- Strict "is coarser than" comparison (`<` on the integer enumeration). -/
def ltb (a b : QueryLevel) : Bool := Nat.blt a.toNat b.toNat

theorem ltb_ne (a b : QueryLevel) (h : ltb a b = true) : a ≠ b := by
  intro hab
  subst hab
  simp [ltb, Nat.blt] at h

end QueryLevel

/-- A record (a pydicom `Dataset` restricted to its identifier-valued
attributes, the only attributes the transform bookkeeping reads). -/
structure Dataset where
  patientID : String
  studyUID : String
  seriesUID : String
  sopUID : String
deriving DecidableEq

/-- Modelled from the spec: the identifier-valued attribute lookup
`get_uid(level, record)`. -/
def get_uid : QueryLevel → Dataset → String
  | .patient, ds => ds.patientID
  | .study, ds => ds.studyUID
  | .series, ds => ds.seriesUID
  | .image, ds => ds.sopUID

/-- Modelled from the spec: the module-level mapping from hierarchy level to
that level's identifier-valued attribute name (`uid_elems`), ordered from
the coarsest level down. -/
def uid_elems : List (QueryLevel × String) :=
  [(.patient, "PatientID"), (.study, "StudyInstanceUID"),
   (.series, "SeriesInstanceUID"), (.image, "SOPInstanceUID")]

/-- Embeds `uid_elem_set = FrozenLazySet(uid_elems.values())` from `filt.py`. -/
def uid_elem_set : LazySet :=
  .fin {"PatientID", "StudyInstanceUID", "SeriesInstanceUID", "SOPInstanceUID"}

/-- The hierarchy levels from the coarsest down to (and including) `l`;
the iteration order of `uid_elems` with the loop break at `l`. -/
def levelsUpTo : QueryLevel → List QueryLevel
  | .patient => [.patient]
  | .study => [.patient, .study]
  | .series => [.patient, .study, .series]
  | .image => [.patient, .study, .series, .image]

/-- The chain of identifiers of a record from the root down to level `l`. -/
def pathUpTo (l : QueryLevel) (ds : Dataset) : List String :=
  (levelsUpTo l).map (fun lv => get_uid lv ds)

/-- Modelled from the spec: two records conflict (cannot be reconciled with
one another's hierarchy membership) when they share an identifier at some
level at-or-above `l` but disagree on the ancestor chain of that level. -/
def dsConflict (l : QueryLevel) (a b : Dataset) : Bool :=
  (levelsUpTo l).any fun lv =>
    (get_uid lv a == get_uid lv b) && decide (pathUpTo lv a ≠ pathUpTo lv b)

/-- Modelled from the spec: a hierarchical record collection, materialized at
a fixed level; membership and deduplication are by the identifier chain up
to that level. -/
structure QueryResult where
  level : QueryLevel
  data : List Dataset
deriving DecidableEq

/-- Modelled from the spec: does the incoming record violate hierarchy
membership against the collection (the distinguished *inconsistent*
condition raised by `add`/`contains`)? -/
def qrConflicts (qr : QueryResult) (ds : Dataset) : Bool :=
  qr.data.any (fun d => dsConflict qr.level ds d)

/-- Modelled from the spec: membership at the collection's level
(the *duplicate* condition is `contains` returning true). -/
def qrHasPath (qr : QueryResult) (ds : Dataset) : Bool :=
  qr.data.any (fun d => pathUpTo qr.level d == pathUpTo qr.level ds)

/-- Insert a record (the collection collaborator's `add` after its
consistency check has passed). -/
def qrAppend (qr : QueryResult) (ds : Dataset) : QueryResult :=
  { qr with data := qr.data ++ [ds] }

/-- Modelled from the spec: `remove(record)` drops the record with the given
identifier chain from the collection. -/
def qrRemove (qr : QueryResult) (ds : Dataset) : QueryResult :=
  { qr with data := qr.data.filter (fun d => !(pathUpTo qr.level d == pathUpTo qr.level ds)) }

theorem any_filter_not (l : List Dataset) (p : Dataset → Bool) :
    (l.filter (fun d => !(p d))).any p = false := by
  induction l with
  | nil => rfl
  | cons d t ih =>
      by_cases h : p d = true <;> simp [List.filter_cons, h, ih]

theorem qrHasPath_qrRemove (qr : QueryResult) (ds : Dataset) :
    qrHasPath (qrRemove qr ds) ds = false := by
  simpa [qrHasPath, qrRemove] using
    any_filter_not qr.data (fun d => pathUpTo qr.level d == pathUpTo qr.level ds)

/-- A single filter: a transformation function plus its declared
read/write/invertible capability sets (`Filter` in `filt.py`). -/
structure Filter where
  func : Dataset → Option Dataset
  read_elems : LazySet
  write_elems : LazySet
  invertible_elems : LazySet

namespace Filter

/-- Embeds `Filter.__post_init__`: when the invertible set is non-empty, widen the
write set to include it (never narrow it); the freezing step is the
identity in this model. -/
def make (func : Dataset → Option Dataset) (read write inv : LazySet) : Filter :=
  { func := func
    read_elems := read
    write_elems := if inv.isEmpty then write else write.union inv
    invertible_elems := inv }

/-- Embeds `_BaseFilter.uninvertible_elems`. -/
def uninvertible_elems (f : Filter) : LazySet :=
  f.write_elems.diff f.invertible_elems

/-- Embeds `_BaseFilter.invertible_uids`. -/
def invertible_uids (f : Filter) : LazySet :=
  uid_elem_set.diff f.uninvertible_elems

/-- Embeds `Filter.get_dependencies`: a stand-alone filter always reports itself
and its full read set, whatever was requested. -/
def get_dependencies (f : Filter) (elems : LazySet) :
    List (Dataset → Option Dataset) × LazySet :=
  ([f.func], f.read_elems)

end Filter

/-- Union of the read sets of a list of filters, onto an accumulator
(the scratch `LazySet` accumulators of `MultiFilter.__post_init__` and
`MultiFilter.get_dependencies`). -/
def readsUnionFrom (acc : LazySet) (fs : List Filter) : LazySet :=
  fs.foldl (fun s f => s.union f.read_elems) acc

/-- Union of the write sets of a list of filters, onto an accumulator. -/
def writesUnionFrom (acc : LazySet) (fs : List Filter) : LazySet :=
  fs.foldl (fun s f => s.union f.write_elems) acc

/-- Union of the invertible sets of a list of filters, onto an accumulator. -/
def invsUnionFrom (acc : LazySet) (fs : List Filter) : LazySet :=
  fs.foldl (fun s f => s.union f.invertible_elems) acc

/-- Union of the non-invertibly-written sets `write_i − invertible_i` of a
list of filters, onto an accumulator. -/
def uninvsUnionFrom (acc : LazySet) (fs : List Filter) : LazySet :=
  fs.foldl (fun s f => s.union (f.write_elems.diff f.invertible_elems)) acc

/-- An ordered filter chain with its aggregated capability sets
(`MultiFilter` in `filt.py`). -/
structure MultiFilter where
  filters : List Filter
  read_elems : LazySet
  write_elems : LazySet
  invertible_elems : LazySet

namespace MultiFilter

/-- One step of the accumulation loop in `MultiFilter.__post_init__`. -/
def postInitStep (a : LazySet × LazySet × LazySet × LazySet) (f : Filter) :
    LazySet × LazySet × LazySet × LazySet :=
  (a.1.union f.read_elems, a.2.1.union f.write_elems,
   a.2.2.1.union f.invertible_elems,
   a.2.2.2.union (f.write_elems.diff f.invertible_elems))

/-- Embeds `MultiFilter.__post_init__`: a single pass over the member filters
accumulates the four aggregate sets, then the chain's invertible set is the
invertible union minus the non-invertible union. -/
def make (fs : List Filter) : MultiFilter :=
  let acc := fs.foldl postInitStep
    (LazySet.empty, LazySet.empty, LazySet.empty, LazySet.empty)
  { filters := fs
    read_elems := acc.1
    write_elems := acc.2.1
    invertible_elems := acc.2.2.1.diff acc.2.2.2 }

/-- Embeds `MultiFilter.__call__`: run the filters left to right, stopping as soon
as one drops the record. -/
def call (mf : MultiFilter) (ds : Dataset) : Option Dataset :=
  mf.filters.foldl (fun acc f => acc.bind f.func) (some ds)

/-- Embeds `_BaseFilter.invertible_uids` for a chain. -/
def invertible_uids (mf : MultiFilter) : LazySet :=
  uid_elem_set.diff (mf.write_elems.diff mf.invertible_elems)

end MultiFilter

/-- The forward selection pass of `MultiFilter.get_dependencies`, carrying
the accumulated read requirements of the filters selected so far and
returning the selected functions with the final accumulator. -/
def depLoop (elems : LazySet) :
    List Filter → LazySet → List (Dataset → Option Dataset) × LazySet
  | [], dep => ([], dep)
  | f :: rest, dep =>
      if !((dep.inter f.write_elems).isEmpty) || !((elems.inter f.write_elems).isEmpty) then
        let r := depLoop elems rest (dep.union f.read_elems)
        (f.func :: r.1, r.2)
      else
        depLoop elems rest dep

/-- Embeds `MultiFilter.get_dependencies`. -/
def MultiFilter.get_dependencies (mf : MultiFilter) (elems : LazySet) :
    List (Dataset → Option Dataset) × LazySet :=
  depLoop elems mf.filters LazySet.empty

/-- The claim's description of the selection: a filter is selected iff its
write set meets the requested set or the accumulated union of the read sets
of the previously selected filters; stated over the list of filters so the
selected subsequence itself is visible. -/
def selectedFilters (elems : LazySet) : List Filter → LazySet → List Filter
  | [], _ => []
  | f :: rest, acc =>
      if !((acc.inter f.write_elems).isEmpty) || !((elems.inter f.write_elems).isEmpty) then
        f :: selectedFilters elems rest (acc.union f.read_elems)
      else
        selectedFilters elems rest acc

theorem depLoop_eq_selected (elems : LazySet) (fs : List Filter) :
    ∀ acc : LazySet,
      depLoop elems fs acc =
        ((selectedFilters elems fs acc).map Filter.func,
          readsUnionFrom acc (selectedFilters elems fs acc)) := by
  induction fs with
  | nil => intro acc; rfl
  | cons f rest ih =>
      intro acc
      by_cases h : (!((acc.inter f.write_elems).isEmpty)
          || !((elems.inter f.write_elems).isEmpty)) = true
      · simp only [depLoop, selectedFilters, if_pos h, ih (acc.union f.read_elems)]
        rfl
      · simp only [depLoop, selectedFilters, if_neg h, ih acc]

theorem selectedFilters_sublist (elems : LazySet) (fs : List Filter) :
    ∀ acc : LazySet, List.Sublist (selectedFilters elems fs acc) fs := by
  induction fs with
  | nil => intro acc; simp [selectedFilters]
  | cons f rest ih =>
      intro acc
      by_cases h : (!((acc.inter f.write_elems).isEmpty)
          || !((elems.inter f.write_elems).isEmpty)) = true
      · rw [selectedFilters, if_pos h]
        exact List.Sublist.cons₂ f (ih (acc.union f.read_elems))
      · rw [selectedFilters, if_neg h]
        exact List.Sublist.cons f (ih acc)

/-- The error kinds raised by the engine and its collection collaborator
(`DuplicateDataError`, `InconsistentDataError`, `QueryLevelMismatchError`,
plus the `KeyError` a missing mapping entry would raise). -/
inductive DcmError where
  | duplicateData
  | inconsistentData
  | queryLevelMismatch
  | keyError
deriving DecidableEq

/-- Embeds `DataCollection`: a well-formed collection plus the records that could
not be placed in it. -/
structure DataCollection where
  qr : QueryResult
  inconsistent : List Dataset
  duplicate : List Dataset
deriving DecidableEq

/-- Modelled from the spec: an anchor node for sub-hierarchy queries. -/
structure DataNode where
  level : QueryLevel
  uid : String

/-- Modelled from the spec: `sub_query(anchor, max_level)` returns the
portion of the collection rooted at the anchor identifier, capped at
`max_level`. -/
def QueryResult.sub_query (qr : QueryResult) (node : DataNode) (maxLevel : QueryLevel) :
    QueryResult :=
  { level := maxLevel
    data := qr.data.filter (fun ds => get_uid node.level ds == node.uid) }

/-- Modelled from the spec: in-place union of collections (`res |= sub`),
skipping records already present by identifier chain. -/
def qrUnion (a b : QueryResult) : QueryResult :=
  { level := a.level
    data := a.data ++ b.data.filter (fun ds => !(qrHasPath a ds)) }

/-- Embeds `DummyTransform`: the identity engine; `old` and `new` are the same
collection object. -/
structure DummyTransform where
  qr : QueryResult

namespace DummyTransform

/-- Embeds `DummyTransform.__init__`. -/
def init (qr : QueryResult) : DummyTransform := ⟨qr⟩

/-- The engine's pre-transform view. -/
def old (t : DummyTransform) : QueryResult := t.qr

/-- The engine's post-transform view (the same object). -/
def new (t : DummyTransform) : QueryResult := t.qr

/-- Embeds `DummyTransform.add` (for the identity engine the pre- and post-record
are the same record): duplicate membership fails, otherwise insert. -/
def add (t : DummyTransform) (old_ds : Dataset) : Except DcmError DummyTransform :=
  if qrConflicts t.qr old_ds then .error .inconsistentData
  else if qrHasPath t.qr old_ds then .error .duplicateData
  else .ok ⟨qrAppend t.qr old_ds⟩

/-- Embeds `DummyTransform.reverse`: wrap the requested subset in a bundle with
empty inconsistent/duplicate lists. -/
def reverse (t : DummyTransform) (new_qr : QueryResult) : DataCollection :=
  ⟨new_qr, [], []⟩

end DummyTransform

/-- Is the requested subset a subset (by identifier chain, at the same
level) of the collection? -/
def qrSubset (s qr : QueryResult) : Bool :=
  (s.level == qr.level) && s.data.all (fun ds => qrHasPath qr ds)

/-- Embeds `FilterTransform` state: the two collections, the per-level
new-identifier-to-old-identifier mapping, the two "fixed" ledgers, and the
cached chain-invertible-identifiers set. -/
structure FilterTransform where
  old : QueryResult
  new : QueryResult
  new_to_old : QueryLevel → List (String × String)
  fixed_inconsistent : List (String × Dataset)
  fixed_duplicates : List (String × Dataset)
  fully_invertible : LazySet

/-- Overwrite-style insertion into one level of the `_new_to_old` mapping
(newest entry shadows older ones under `List.lookup`). -/
def updLevel (m : QueryLevel → List (String × String)) (lvl : QueryLevel)
    (pair : String × String) : QueryLevel → List (String × String) :=
  fun l => if l = lvl then pair :: m l else m l

/-- The mapping-recording loop of `FilterTransform._add_new`: for every
level of `uid_elems` down to (and including) the collection's level, record
`new_uid → old_uid`. -/
def recordMappings (m : QueryLevel → List (String × String))
    (old_ds new_ds : Dataset) (l : QueryLevel) : QueryLevel → List (String × String) :=
  (levelsUpTo l).foldl
    (fun acc lv => updLevel acc lv (get_uid lv new_ds, get_uid lv old_ds)) m

namespace FilterTransform

/-- Embeds `FilterTransform._add_new`: raise the collaborator's inconsistent
condition if the filtered record cannot be reconciled with `new`; report a
duplicate (`none`, no mutation) if its identifier chain is already present;
otherwise insert it, record the identifier mappings, and return the new
identifier at the collection's level. -/
def addNew (ft : FilterTransform) (old_ds new_ds : Dataset) :
    Except DcmError (Option (String × FilterTransform)) :=
  if qrConflicts ft.new new_ds then .error .inconsistentData
  else if qrHasPath ft.new new_ds then .ok none
  else .ok (some (get_uid ft.old.level new_ds,
    { ft with
        new := qrAppend ft.new new_ds
        new_to_old := recordMappings ft.new_to_old old_ds new_ds ft.old.level }))

/-- The post-classification part of `FilterTransform.add`: merge the
filtered record, rolling the insertion of `old_ds` back out of `old` when
the merge fails and the failure is not pre-existing, and recording the
"fixed" ledgers on success. -/
def addMergeNew (ft1 : FilterTransform) (old_inconsistent old_dupe : Bool)
    (old_ds nds : Dataset) : FilterTransform × Option DcmError :=
  match ft1.addNew old_ds nds with
  | .error e =>
      if old_inconsistent then (ft1, some e)
      else ({ ft1 with old := qrRemove ft1.old old_ds }, some e)
  | .ok none =>
      if old_dupe then (ft1, some .duplicateData)
      else ({ ft1 with old := qrRemove ft1.old old_ds }, some .duplicateData)
  | .ok (some (uid, ft2)) =>
      if old_inconsistent then
        ({ ft2 with fixed_inconsistent := (uid, old_ds) :: ft2.fixed_inconsistent }, none)
      else if old_dupe then
        ({ ft2 with fixed_duplicates := (uid, old_ds) :: ft2.fixed_duplicates }, none)
      else (ft2, none)

/-- Embeds `FilterTransform.add`: classify `old_ds` against `old` (the membership
test may itself raise the inconsistent condition, in which case nothing is
inserted), insert it when it is new, then merge the filtered record.  The
returned state is the engine's state after the call, alongside the error
raised, if any. -/
def add (ft : FilterTransform) (old_ds : Dataset) (new_ds : Option Dataset) :
    FilterTransform × Option DcmError :=
  let old_inconsistent := qrConflicts ft.old old_ds
  let old_dupe := !old_inconsistent && qrHasPath ft.old old_ds
  let ft1 := if old_inconsistent || old_dupe then ft
    else { ft with old := qrAppend ft.old old_ds }
  match new_ds with
  | none => (ft1, none)
  | some nds => addMergeNew ft1 old_inconsistent old_dupe old_ds nds

/-- The per-record inversion loop of `FilterTransform.reverse`. -/
def reverseLoop (ft : FilterTransform) (lvl : QueryLevel) :
    List Dataset → QueryResult → List Dataset → List Dataset →
      Except DcmError DataCollection
  | [], res, inconsist, dupes => .ok ⟨res, inconsist, dupes⟩
  | ds :: rest, res, inconsist, dupes =>
      match List.lookup (get_uid lvl ds) (ft.new_to_old lvl) with
      | none => .error .keyError
      | some old_uid =>
          if lvl = ft.new.level then
            match List.lookup (get_uid lvl ds) ft.fixed_duplicates with
            | some old_dupe => reverseLoop ft lvl rest res inconsist (dupes ++ [old_dupe])
            | none =>
                match List.lookup (get_uid lvl ds) ft.fixed_inconsistent with
                | some old_inc => reverseLoop ft lvl rest res (inconsist ++ [old_inc]) dupes
                | none =>
                    reverseLoop ft lvl rest
                      (qrUnion res (ft.old.sub_query ⟨lvl, old_uid⟩ lvl)) inconsist dupes
          else
            reverseLoop ft lvl rest
              (qrUnion res (ft.old.sub_query ⟨lvl, old_uid⟩ lvl)) inconsist dupes

/-- Embeds `FilterTransform.reverse`: reject the request with the level-mismatch
error when its level differs from the engine's and is either finer or the
chain-invertible-identifiers set is empty; otherwise run the per-record
inversion loop. -/
def reverse (ft : FilterTransform) (new_qr : QueryResult) :
    Except DcmError DataCollection :=
  if new_qr.level = ft.new.level then
    reverseLoop ft new_qr.level new_qr.data ⟨new_qr.level, []⟩ [] []
  else if QueryLevel.ltb ft.new.level new_qr.level || ft.fully_invertible.isEmpty then
    .error .queryLevelMismatch
  else
    reverseLoop ft new_qr.level new_qr.data ⟨new_qr.level, []⟩ [] []

/-- The bulk-construction loop of `FilterTransform.__init__`: filter each
source record and merge the produced ones, logging and aborting with the
error on a filter-produced inconsistent or duplicate record.  The second
component is the log. -/
def initGo (call : Dataset → Option Dataset) :
    List Dataset → FilterTransform → List String →
      Except DcmError FilterTransform × List String
  | [], ft, logs => (.ok ft, logs)
  | ds :: rest, ft, logs =>
      match call ds with
      | none => initGo call rest ft logs
      | some nds =>
          match ft.addNew ds nds with
          | .error e => (.error e, logs ++ ["Filter made data inconsistent"])
          | .ok none => (.error .duplicateData, logs ++ ["Filter made data into a duplicate"])
          | .ok (some (_, ft2)) => initGo call rest ft2 logs

/-- Embeds `FilterTransform.__init__`, generic over the filter's callable and its
invertible-identifiers set (shared by single filters and chains). -/
def initCore (qr : QueryResult) (call : Dataset → Option Dataset)
    (inv_uids : LazySet) : Except DcmError FilterTransform × List String :=
  initGo call qr.data
    { old := qr
      new := ⟨qr.level, []⟩
      new_to_old := fun _ => []
      fixed_inconsistent := []
      fixed_duplicates := []
      fully_invertible := inv_uids } []

/-- Embeds `FilterTransform.__init__` for a single `Filter`. -/
def init (qr : QueryResult) (filt : Filter) :
    Except DcmError FilterTransform × List String :=
  initCore qr filt.func filt.invertible_uids

/-- Embeds `FilterTransform.__init__` for a chain. -/
def initMulti (qr : QueryResult) (mf : MultiFilter) :
    Except DcmError FilterTransform × List String :=
  initCore qr mf.call mf.invertible_uids

end FilterTransform

/-- Embeds `make_edit_filter`: the returned `Filter` reads everything, writes the
edited keys (or, when `update_uids` is set, the whole schema), and declares
nothing invertible.  Modelled from the spec: the edit function's body
(attribute assignment/deletion and deterministic UID remapping through the
record format library) lies outside the embedded fragment and is taken as a
parameter; only the declared capability sets are embedded. -/
def make_edit_filter (edit_func : Dataset → Option Dataset)
    (editKeys : Finset String) (update_uids : Bool) : Filter :=
  Filter.make edit_func LazySet.allElems
    (if update_uids then LazySet.allElems else LazySet.fin editKeys)
    LazySet.empty

/-- Sample record P1/St1/Se1/I1. -/
def dsA : Dataset := ⟨"P1", "St1", "Se1", "I1"⟩

/-- Sample record sharing no identifiers with `dsA`. -/
def dsB : Dataset := ⟨"P2", "St2", "Se2", "I2"⟩

theorem postInit_fold (fs : List Filter) :
    ∀ a b c d : LazySet,
      fs.foldl MultiFilter.postInitStep (a, b, c, d) =
        (readsUnionFrom a fs, writesUnionFrom b fs,
          invsUnionFrom c fs, uninvsUnionFrom d fs) := by
  induction fs with
  | nil => intros; rfl
  | cons f rest ih =>
      intro a b c d
      simpa [List.foldl_cons, MultiFilter.postInitStep, readsUnionFrom,
        writesUnionFrom, invsUnionFrom, uninvsUnionFrom] using
        ih (a.union f.read_elems) (b.union f.write_elems)
          (c.union f.invertible_elems)
          (d.union (f.write_elems.diff f.invertible_elems))

theorem multiFilter_make_read (fs : List Filter) :
    (MultiFilter.make fs).read_elems = readsUnionFrom LazySet.empty fs := by
  simp [MultiFilter.make, postInit_fold]

theorem multiFilter_make_write (fs : List Filter) :
    (MultiFilter.make fs).write_elems = writesUnionFrom LazySet.empty fs := by
  simp [MultiFilter.make, postInit_fold]

theorem multiFilter_make_invertible (fs : List Filter) :
    (MultiFilter.make fs).invertible_elems =
      (invsUnionFrom LazySet.empty fs).diff (uninvsUnionFrom LazySet.empty fs) := by
  simp [MultiFilter.make, postInit_fold]

/-- C3: a chain's read and write sets are the plain unions of its members'
read and write sets, its invertible set is the union of the members'
invertible sets minus the union of the members' non-invertibly-written
sets, and in particular an attribute one member declares invertible but a
later member writes non-invertibly is not chain-invertible. -/
theorem multiFilter_aggregate_sets (fs : List Filter) (f1 f2 : Filter) (x : String) :
    ((MultiFilter.make fs).read_elems = readsUnionFrom LazySet.empty fs ∧
      (MultiFilter.make fs).write_elems = writesUnionFrom LazySet.empty fs ∧
      (MultiFilter.make fs).invertible_elems =
        (invsUnionFrom LazySet.empty fs).diff (uninvsUnionFrom LazySet.empty fs)) ∧
    (f1.invertible_elems.contains x = true →
      f2.write_elems.contains x = true →
      f2.invertible_elems.contains x = false →
      (MultiFilter.make [f1, f2]).invertible_elems.contains x = false) := by
  refine ⟨⟨multiFilter_make_read fs, multiFilter_make_write fs,
    multiFilter_make_invertible fs⟩, ?_⟩
  intro _ hw2 hi2
  rw [multiFilter_make_invertible [f1, f2], LazySet.contains_diff]
  have hu : (uninvsUnionFrom LazySet.empty [f1, f2]).contains x = true := by
    show ((LazySet.empty.union (f1.write_elems.diff f1.invertible_elems)).union
      (f2.write_elems.diff f2.invertible_elems)).contains x = true
    rw [LazySet.contains_union, LazySet.contains_diff, hw2, hi2]
    simp
  rw [hu]
  simp

/-- C3 witness: with a filter declaring `"X"` invertible followed by one
writing `"X"` non-invertibly, `"X"` is not in the chain's invertible set. -/
theorem multiFilter_aggregate_sets_witness :
    (MultiFilter.make
        [Filter.make (fun ds => some ds) LazySet.empty (LazySet.fin {"X"}) (LazySet.fin {"X"}),
          Filter.make (fun ds => some ds) LazySet.empty (LazySet.fin {"X"}) LazySet.empty]
      ).invertible_elems.contains "X" = false :=
  (multiFilter_aggregate_sets []
      (Filter.make (fun ds => some ds) LazySet.empty (LazySet.fin {"X"}) (LazySet.fin {"X"}))
      (Filter.make (fun ds => some ds) LazySet.empty (LazySet.fin {"X"}) LazySet.empty)
      "X").2 (by decide) (by decide) (by decide)

/-- C4: `get_dependencies` selects, in a single forward pass in declared
order, exactly the filters whose write set meets the requested set or the
union of the read sets of the previously selected filters, and returns the
selected functions in original order paired with the union of the selected
filters' read sets. -/
theorem multiFilter_get_dependencies_spec (mf : MultiFilter) (elems : LazySet) :
    mf.get_dependencies elems =
        ((selectedFilters elems mf.filters LazySet.empty).map Filter.func,
          readsUnionFrom LazySet.empty (selectedFilters elems mf.filters LazySet.empty)) ∧
      List.Sublist (selectedFilters elems mf.filters LazySet.empty) mf.filters :=
  ⟨depLoop_eq_selected elems mf.filters LazySet.empty,
    selectedFilters_sublist elems mf.filters LazySet.empty⟩

/-- C6: after construction a filter's invertible set is contained in its
write set; when the given invertible set was not contained in the given
write set, the stored write set is the union of the two and the invertible
set is kept as given. -/
theorem filter_invertible_subset_write (func : Dataset → Option Dataset)
    (read write inv : LazySet) :
    (Filter.make func read write inv).invertible_elems.subsetOf
        (Filter.make func read write inv).write_elems = true ∧
      (inv.subsetOf write = false →
        (Filter.make func read write inv).write_elems = write.union inv ∧
          (Filter.make func read write inv).invertible_elems = inv) := by
  constructor
  · simp only [Filter.make]
    by_cases h : inv.isEmpty = true
    · rw [if_pos h]
      exact LazySet.isEmpty_subsetOf inv write h
    · rw [if_neg h]
      exact LazySet.subsetOf_union_right inv write
  · intro hns
    have hne : inv.isEmpty = false := by
      cases hi : inv.isEmpty
      · rfl
      · rw [LazySet.isEmpty_subsetOf inv write hi] at hns
        exact absurd hns (by simp)
    simp [Filter.make, hne]

/-- C6 witness: constructing with `invertible = {"X"}` exceeding
`write = ∅` widens the stored write set to `{"X"}` and keeps the
invertible set. -/
theorem filter_invertible_subset_write_witness :
    (Filter.make (fun ds => some ds) LazySet.empty LazySet.empty
          (LazySet.fin {"X"})).write_elems = LazySet.empty.union (LazySet.fin {"X"}) ∧
      (Filter.make (fun ds => some ds) LazySet.empty LazySet.empty
          (LazySet.fin {"X"})).invertible_elems = LazySet.fin {"X"} :=
  (filter_invertible_subset_write (fun ds => some ds) LazySet.empty LazySet.empty
      (LazySet.fin {"X"})).2 (by decide)

/-- C7: the identity (no-filter) engine's `reverse` wraps the requested
subset of its collection in a bundle with empty inconsistent and duplicate
lists. -/
theorem dummy_reverse_identity (t : DummyTransform) (s : QueryResult)
    (h : qrSubset s t.old = true) :
    (t.reverse s).qr = s ∧ (t.reverse s).inconsistent = [] ∧
      (t.reverse s).duplicate = [] :=
  ⟨rfl, rfl, rfl⟩

/-- C7 witness: concrete identity engine over a one-record collection. -/
theorem dummy_reverse_identity_witness :
    (DummyTransform.reverse (DummyTransform.init ⟨.patient, [dsA]⟩)
          ⟨.patient, [dsA]⟩).qr = ⟨.patient, [dsA]⟩ ∧
      (DummyTransform.reverse (DummyTransform.init ⟨.patient, [dsA]⟩)
          ⟨.patient, [dsA]⟩).inconsistent = [] ∧
      (DummyTransform.reverse (DummyTransform.init ⟨.patient, [dsA]⟩)
          ⟨.patient, [dsA]⟩).duplicate = [] :=
  dummy_reverse_identity (DummyTransform.init ⟨.patient, [dsA]⟩)
    ⟨.patient, [dsA]⟩ (by decide)

/-- C9: a stand-alone filter's `get_dependencies` returns its function and
its full declared read set for every requested capability set, so pruning
never excludes it — in particular also when the requested set is disjoint
from its write set. -/
theorem filter_get_dependencies_total (f : Filter) (elems : LazySet) :
    f.get_dependencies elems = ([f.func], f.read_elems) :=
  rfl

theorem addNew_error_eq (ft : FilterTransform) (old_ds new_ds : Dataset)
    (e : DcmError) (h : ft.addNew old_ds new_ds = .error e) :
    e = .inconsistentData := by
  simp only [FilterTransform.addNew] at h
  split_ifs at h <;> simp_all

theorem addNew_ok_some (ft : FilterTransform) (old_ds new_ds : Dataset)
    (uid : String) (ft2 : FilterTransform)
    (h : ft.addNew old_ds new_ds = .ok (some (uid, ft2))) :
    uid = get_uid ft.old.level new_ds ∧
      ft2 = { ft with
        new := qrAppend ft.new new_ds
        new_to_old := recordMappings ft.new_to_old old_ds new_ds ft.old.level } := by
  simp only [FilterTransform.addNew] at h
  split_ifs at h <;>
    first
      | simp_all
      | (injection h with h1
         injection h1 with h2
         injection h2 with h3 h4
         exact ⟨h3.symm, h4.symm⟩)

theorem add_eq_inconsPre (ft : FilterTransform) (old_ds new_ds : Dataset)
    (hc : qrConflicts ft.old old_ds = true) :
    FilterTransform.add ft old_ds (some new_ds) =
      FilterTransform.addMergeNew ft true false old_ds new_ds := by
  simp [FilterTransform.add, hc]

theorem add_eq_dupePre (ft : FilterTransform) (old_ds new_ds : Dataset)
    (hc : qrConflicts ft.old old_ds = false) (hp : qrHasPath ft.old old_ds = true) :
    FilterTransform.add ft old_ds (some new_ds) =
      FilterTransform.addMergeNew ft false true old_ds new_ds := by
  simp [FilterTransform.add, hc, hp]

theorem add_eq_fresh (ft : FilterTransform) (old_ds new_ds : Dataset)
    (hc : qrConflicts ft.old old_ds = false) (hp : qrHasPath ft.old old_ds = false) :
    FilterTransform.add ft old_ds (some new_ds) =
      FilterTransform.addMergeNew { ft with old := qrAppend ft.old old_ds }
        false false old_ds new_ds := by
  simp [FilterTransform.add, hc, hp]

/-- C1: when merging the filtered record fails, the failed `add` leaves
`old_ds` out of the `old` collection, except that a record that already was
a known duplicate (`DuplicateData` case) or already independently
inconsistent (`InconsistentData` case) leaves the engine's state exactly as
it was before the call. -/
theorem filterTransform_add_rollback (ft ft' : FilterTransform)
    (old_ds new_ds : Dataset) (e : DcmError)
    (h : FilterTransform.add ft old_ds (some new_ds) = (ft', some e)) :
    ((e = .duplicateData ∧ qrConflicts ft.old old_ds = false ∧
        qrHasPath ft.old old_ds = true) → ft' = ft) ∧
    ((e = .inconsistentData ∧ qrConflicts ft.old old_ds = true) → ft' = ft) ∧
    (((e = .duplicateData ∧ ¬(qrConflicts ft.old old_ds = false ∧
          qrHasPath ft.old old_ds = true)) ∨
        (e = .inconsistentData ∧ qrConflicts ft.old old_ds = false)) →
      qrHasPath ft'.old old_ds = false) := by
  cases hc : qrConflicts ft.old old_ds
  case true =>
    rw [add_eq_inconsPre ft old_ds new_ds hc] at h
    rcases han : FilterTransform.addNew ft old_ds new_ds with e' | r
    · have he' := addNew_error_eq ft old_ds new_ds e' han
      subst he'
      simp only [FilterTransform.addMergeNew, han, if_pos] at h
      rw [Prod.mk.injEq] at h
      obtain ⟨h1, h2⟩ := h
      injection h2 with h2
      subst h1; subst h2
      refine ⟨?_, ?_, ?_⟩ <;> intro hx <;> simp_all [qrHasPath_qrRemove]
    · rcases r with _ | ⟨uid, ft2⟩
      · simp only [FilterTransform.addMergeNew, han] at h
        rw [Prod.mk.injEq] at h
        obtain ⟨h1, h2⟩ := h
        injection h2 with h2
        subst h1; subst h2
        refine ⟨?_, ?_, ?_⟩ <;> intro hx <;> simp_all [qrHasPath_qrRemove]
      · simp only [FilterTransform.addMergeNew, han] at h
        simp [Prod.mk.injEq] at h
  case false =>
    cases hp : qrHasPath ft.old old_ds
    case true =>
      rw [add_eq_dupePre ft old_ds new_ds hc hp] at h
      rcases han : FilterTransform.addNew ft old_ds new_ds with e' | r
      · have he' := addNew_error_eq ft old_ds new_ds e' han
        subst he'
        simp only [FilterTransform.addMergeNew, han] at h
        rw [Prod.mk.injEq] at h
        obtain ⟨h1, h2⟩ := h
        injection h2 with h2
        subst h1; subst h2
        refine ⟨?_, ?_, ?_⟩ <;> intro hx <;> simp_all [qrHasPath_qrRemove]
      · rcases r with _ | ⟨uid, ft2⟩
        · simp only [FilterTransform.addMergeNew, han] at h
          rw [Prod.mk.injEq] at h
          obtain ⟨h1, h2⟩ := h
          injection h2 with h2
          subst h1; subst h2
          refine ⟨?_, ?_, ?_⟩ <;> intro hx <;> simp_all [qrHasPath_qrRemove]
        · simp only [FilterTransform.addMergeNew, han] at h
          simp [Prod.mk.injEq] at h
    case false =>
      rw [add_eq_fresh ft old_ds new_ds hc hp] at h
      rcases han : FilterTransform.addNew { ft with old := qrAppend ft.old old_ds }
          old_ds new_ds with e' | r
      · have he' := addNew_error_eq _ old_ds new_ds e' han
        subst he'
        simp only [FilterTransform.addMergeNew, han] at h
        rw [Prod.mk.injEq] at h
        obtain ⟨h1, h2⟩ := h
        injection h2 with h2
        subst h1; subst h2
        refine ⟨?_, ?_, ?_⟩ <;> intro hx <;> simp_all [qrHasPath_qrRemove]
      · rcases r with _ | ⟨uid, ft2⟩
        · simp only [FilterTransform.addMergeNew, han] at h
          rw [Prod.mk.injEq] at h
          obtain ⟨h1, h2⟩ := h
          injection h2 with h2
          subst h1; subst h2
          refine ⟨?_, ?_, ?_⟩ <;> intro hx <;> simp_all [qrHasPath_qrRemove]
        · simp only [FilterTransform.addMergeNew, han] at h
          simp [Prod.mk.injEq] at h

/-- Engine state whose `old` already holds `dsA` and whose `new` already
holds `dsB` (so adding `dsA` again with filtered output `dsB` is a
pre-existing duplicate hitting a filter-produced duplicate). -/
def ftW1 : FilterTransform :=
  { old := ⟨.patient, [dsA]⟩
    new := ⟨.patient, [dsB]⟩
    new_to_old := fun _ => []
    fixed_inconsistent := []
    fixed_duplicates := []
    fully_invertible := LazySet.empty }

/-- C1 witness: a failed duplicate `add` of an already-duplicate record
leaves the engine exactly as it was. -/
theorem filterTransform_add_rollback_witness :
    (FilterTransform.add ftW1 dsA (some dsB)).1 = ftW1 :=
  (filterTransform_add_rollback ftW1 (FilterTransform.add ftW1 dsA (some dsB)).1
      dsA dsB .duplicateData rfl).1 ⟨rfl, by decide, by decide⟩

theorem ltb_asymm (a b : QueryLevel) (h : QueryLevel.ltb a b = true) :
    QueryLevel.ltb b a = false := by
  revert h
  cases a <;> cases b <;> decide

theorem reverseLoop_ne_mismatch (ft : FilterTransform) (lvl : QueryLevel) :
    ∀ (dss : List Dataset) (res : QueryResult) (inc dup : List Dataset),
      FilterTransform.reverseLoop ft lvl dss res inc dup ≠
        .error .queryLevelMismatch := by
  intro dss
  induction dss with
  | nil =>
      intro res inc dup h
      simp [FilterTransform.reverseLoop] at h
  | cons d rest ih =>
      intro res inc dup h
      simp only [FilterTransform.reverseLoop] at h
      rcases hl : List.lookup (get_uid lvl d) (ft.new_to_old lvl) with _ | old_uid <;>
        simp only [hl] at h
      · simp at h
      · by_cases he : lvl = ft.new.level
        · rw [if_pos he] at h
          rcases hd : List.lookup (get_uid lvl d) ft.fixed_duplicates with _ | od <;>
            simp only [hd] at h
          · rcases hi : List.lookup (get_uid lvl d) ft.fixed_inconsistent with _ | oi <;>
              simp only [hi] at h
            · exact ih _ _ _ h
            · exact ih _ _ _ h
          · exact ih _ _ _ h
        · rw [if_neg he] at h
          exact ih _ _ _ h

/-- C2 (amended): a `reverse` request at the engine's own level is always
attempted; a request at a finer level always raises the level-mismatch
error; a request at a coarser level raises the level-mismatch error exactly
when the chain-invertible-identifiers set is empty. -/
theorem filterTransform_reverse_level_gate (ft : FilterTransform)
    (new_qr : QueryResult) :
    (new_qr.level = ft.new.level →
      ft.reverse new_qr ≠ .error .queryLevelMismatch) ∧
    (QueryLevel.ltb ft.new.level new_qr.level = true →
      ft.reverse new_qr = .error .queryLevelMismatch) ∧
    (QueryLevel.ltb new_qr.level ft.new.level = true →
      (ft.reverse new_qr = .error .queryLevelMismatch ↔
        ft.fully_invertible.isEmpty = true)) := by
  refine ⟨?_, ?_, ?_⟩
  · intro heq
    rw [FilterTransform.reverse, if_pos heq]
    exact reverseLoop_ne_mismatch ft new_qr.level new_qr.data ⟨new_qr.level, []⟩ [] []
  · intro hlt
    have hne : new_qr.level ≠ ft.new.level :=
      fun hh => QueryLevel.ltb_ne ft.new.level new_qr.level hlt hh.symm
    rw [FilterTransform.reverse, if_neg hne]
    simp [hlt]
  · intro hlt
    have hne : new_qr.level ≠ ft.new.level := QueryLevel.ltb_ne new_qr.level ft.new.level hlt
    have hgt : QueryLevel.ltb ft.new.level new_qr.level = false :=
      ltb_asymm new_qr.level ft.new.level hlt
    constructor
    · intro hrev
      cases hie : ft.fully_invertible.isEmpty
      · exfalso
        rw [FilterTransform.reverse, if_neg hne] at hrev
        simp only [hgt, hie, Bool.or_self, Bool.false_eq_true, if_false] at hrev
        exact reverseLoop_ne_mismatch ft new_qr.level new_qr.data
          ⟨new_qr.level, []⟩ [] [] hrev
      · rfl
    · intro hemp
      rw [FilterTransform.reverse, if_neg hne]
      simp [hemp]

/-- C2 amended-theorem witness: a coarser request against an engine whose
invertible-identifiers set is empty raises the level-mismatch error. -/
theorem filterTransform_reverse_level_gate_witness :
    FilterTransform.reverse ftW1 ⟨.study, []⟩ = .error .queryLevelMismatch :=
  (filterTransform_reverse_level_gate ftW1 ⟨.study, []⟩).2.1 (by decide)

/-- The engine the filter-driven constructor builds over an empty
study-level collection for an edit filter with UID updating (its
chain-invertible-identifiers set is empty). -/
def ftE : FilterTransform :=
  { old := ⟨.study, []⟩
    new := ⟨.study, []⟩
    new_to_old := fun _ => []
    fixed_inconsistent := []
    fixed_duplicates := []
    fully_invertible := (make_edit_filter (fun ds => some ds) ∅ true).invertible_uids }

/-- C2 counterexample: the claim says a `reverse` request at a level finer
than or equal to the engine's level is never rejected for level reasons,
but this engine (reachable by construction, first conjunct) rejects the
requests at both levels differing from its own — in particular the finer
one — with the level-mismatch error. -/
theorem filterTransform_reverse_finer_rejected :
    (FilterTransform.init ⟨.study, []⟩
        (make_edit_filter (fun ds => some ds) ∅ true)).1 = .ok ftE ∧
      FilterTransform.reverse ftE ⟨.series, []⟩ = .error .queryLevelMismatch ∧
      FilterTransform.reverse ftE ⟨.patient, []⟩ = .error .queryLevelMismatch :=
  ⟨rfl, rfl, rfl⟩

/-- C8: during bulk construction, a record whose filtered output cannot be
reconciled with the already-produced post-filter collection aborts the
whole construction with `InconsistentData`, and one whose filtered output
duplicates an already-produced post-filter record aborts it with
`DuplicateData`; in both cases the filter-produced-inconsistent/duplicate
message is appended to the log and the error is the construction's final
result (no engine is produced). -/
theorem filterTransform_init_failure (call : Dataset → Option Dataset)
    (ds : Dataset) (rest : List Dataset) (ft : FilterTransform)
    (logs : List String) (nds : Dataset) (hcall : call ds = some nds) :
    (qrConflicts ft.new nds = true →
      FilterTransform.initGo call (ds :: rest) ft logs =
        (.error .inconsistentData, logs ++ ["Filter made data inconsistent"])) ∧
    (qrConflicts ft.new nds = false → qrHasPath ft.new nds = true →
      FilterTransform.initGo call (ds :: rest) ft logs =
        (.error .duplicateData, logs ++ ["Filter made data into a duplicate"])) := by
  constructor
  · intro hc
    have han : ft.addNew ds nds = .error .inconsistentData := by
      simp [FilterTransform.addNew, hc]
    simp only [FilterTransform.initGo, hcall, han]
  · intro hc hp
    have han : ft.addNew ds nds = .ok none := by
      simp [FilterTransform.addNew, hc, hp]
    simp only [FilterTransform.initGo, hcall, han]

/-- C8 witness: bulk construction hitting a filter-produced duplicate
aborts with `DuplicateData` and logs it. -/
theorem filterTransform_init_failure_witness :
    FilterTransform.initGo (fun _ => some dsB) [dsA] ftW1 [] =
      (.error .duplicateData, ["Filter made data into a duplicate"]) :=
  (filterTransform_init_failure (fun _ => some dsB) dsA [] ftW1 [] dsB rfl).2
    (by decide) (by decide)

theorem initGo_preserves (call : Dataset → Option Dataset) :
    ∀ (dss : List Dataset) (ft : FilterTransform) (logs : List String)
      (ft' : FilterTransform) (logs' : List String),
      FilterTransform.initGo call dss ft logs = (.ok ft', logs') →
      ft'.fully_invertible = ft.fully_invertible ∧ ft'.new.level = ft.new.level := by
  intro dss
  induction dss with
  | nil =>
      intro ft logs ft' logs' h
      simp only [FilterTransform.initGo, Prod.mk.injEq] at h
      obtain ⟨h1, _⟩ := h
      injection h1 with h1
      subst h1
      exact ⟨rfl, rfl⟩
  | cons d rest ih =>
      intro ft logs ft' logs' h
      simp only [FilterTransform.initGo] at h
      rcases hc : call d with _ | nds <;> simp only [hc] at h
      · exact ih ft logs ft' logs' h
      · rcases han : ft.addNew d nds with e | r
        · simp only [han] at h
          simp [Prod.mk.injEq] at h
        · rcases r with _ | ⟨uid, ft2⟩ <;> simp only [han] at h
          · simp [Prod.mk.injEq] at h
          · have h2 := ih ft2 logs ft' logs' h
            obtain ⟨_, hft2⟩ := addNew_ok_some ft d nds uid ft2 han
            subst hft2
            simpa [qrAppend] using h2

/-- C10: every filter `make_edit_filter` returns declares an empty
invertible set; with `update_uids` its write set is the all-identifiers
sentinel, so its derived invertible-identifiers set is empty, and any
engine the filter-driven constructor builds from it has an empty
`fully_invertible` set and rejects every coarser-level `reverse` request
with the level-mismatch error. -/
theorem make_edit_filter_not_invertible (edit_func : Dataset → Option Dataset)
    (editKeys : Finset String) (u : Bool) (qr : QueryResult)
    (ft : FilterTransform) (logs : List String) :
    (make_edit_filter edit_func editKeys u).invertible_elems = LazySet.empty ∧
    (make_edit_filter edit_func editKeys true).write_elems = LazySet.allElems ∧
    (make_edit_filter edit_func editKeys true).invertible_uids.isEmpty = true ∧
    (FilterTransform.init qr (make_edit_filter edit_func editKeys true) =
        (.ok ft, logs) →
      ft.fully_invertible.isEmpty = true ∧
      ∀ new_qr : QueryResult, QueryLevel.ltb new_qr.level ft.new.level = true →
        ft.reverse new_qr = .error .queryLevelMismatch) := by
  refine ⟨rfl, rfl, rfl, ?_⟩
  intro hinit
  have hpres := initGo_preserves edit_func qr.data _ [] ft logs hinit
  have hinv : ft.fully_invertible.isEmpty = true := by
    rw [hpres.1]
    rfl
  refine ⟨hinv, ?_⟩
  intro new_qr hlt
  have hne : new_qr.level ≠ ft.new.level :=
    QueryLevel.ltb_ne new_qr.level ft.new.level hlt
  rw [FilterTransform.reverse, if_neg hne]
  simp [hinv]

/-- C10 witness: the engine built from a UID-updating edit filter over an
empty study-level collection has an empty invertible-identifiers set and
rejects a patient-level (coarser) `reverse` request. -/
theorem make_edit_filter_not_invertible_witness :
    ftE.fully_invertible.isEmpty = true ∧
      FilterTransform.reverse ftE ⟨.patient, []⟩ = .error .queryLevelMismatch := by
  have h := (make_edit_filter_not_invertible (fun ds => some ds) ∅ true
      ⟨.study, []⟩ ftE []).2.2.2 rfl
  exact ⟨h.1, h.2 ⟨.patient, []⟩ (by decide)⟩

theorem recordMappings_self (m : QueryLevel → List (String × String))
    (old_ds new_ds : Dataset) (l : QueryLevel) :
    recordMappings m old_ds new_ds l l =
      (get_uid l new_ds, get_uid l old_ds) :: m l := by
  cases l <;> rfl

/-- C5: a successful `add` of a record that was a pre-existing duplicate
(resp. pre-existing inconsistent) in `old` records it in `fixed_duplicates`
(resp. `fixed_inconsistent`) under the new identifier at the engine's
working level, and a subsequent `reverse` on the working-level subset
holding the new record returns it in the bundle's duplicate
(resp. inconsistent) list, with nothing merged into the consistent
collection. -/
theorem filterTransform_fixed_surfacing (ft ft' : FilterTransform)
    (old_ds new_ds : Dataset)
    (hlvl : ft.old.level = ft.new.level)
    (hadd : FilterTransform.add ft old_ds (some new_ds) = (ft', none)) :
    (qrConflicts ft.old old_ds = false → qrHasPath ft.old old_ds = true →
      List.lookup (get_uid ft.new.level new_ds) ft'.fixed_duplicates = some old_ds ∧
        FilterTransform.reverse ft' ⟨ft.new.level, [new_ds]⟩ =
          .ok ⟨⟨ft.new.level, []⟩, [], [old_ds]⟩) ∧
    (qrConflicts ft.old old_ds = true →
      List.lookup (get_uid ft.new.level new_ds) ft.fixed_duplicates = none →
      List.lookup (get_uid ft.new.level new_ds) ft'.fixed_inconsistent = some old_ds ∧
        FilterTransform.reverse ft' ⟨ft.new.level, [new_ds]⟩ =
          .ok ⟨⟨ft.new.level, []⟩, [old_ds], []⟩) := by
  constructor
  · intro hc hp
    rw [add_eq_dupePre ft old_ds new_ds hc hp] at hadd
    rcases han : FilterTransform.addNew ft old_ds new_ds with e | r
    · simp only [FilterTransform.addMergeNew, han] at hadd
      split_ifs at hadd <;> simp [Prod.mk.injEq] at hadd
    · rcases r with _ | ⟨uid, ft2⟩
      · simp only [FilterTransform.addMergeNew, han] at hadd
        simp [Prod.mk.injEq] at hadd
      · obtain ⟨huid, hft2⟩ := addNew_ok_some ft old_ds new_ds uid ft2 han
        rw [hlvl] at huid hft2
        subst hft2
        subst huid
        simp only [FilterTransform.addMergeNew, han] at hadd
        simp only [Bool.false_eq_true, if_false, if_true, Prod.mk.injEq,
          and_true] at hadd
        subst hadd
        constructor
        · simp [List.lookup]
        · rw [FilterTransform.reverse, if_pos (by simp [qrAppend])]
          simp only [FilterTransform.reverseLoop]
          rw [recordMappings_self]
          simp [List.lookup, qrAppend, FilterTransform.reverseLoop]
  · intro hc hnd
    rw [add_eq_inconsPre ft old_ds new_ds hc] at hadd
    rcases han : FilterTransform.addNew ft old_ds new_ds with e | r
    · simp only [FilterTransform.addMergeNew, han] at hadd
      split_ifs at hadd <;> simp [Prod.mk.injEq] at hadd
    · rcases r with _ | ⟨uid, ft2⟩
      · simp only [FilterTransform.addMergeNew, han] at hadd
        simp [Prod.mk.injEq] at hadd
      · obtain ⟨huid, hft2⟩ := addNew_ok_some ft old_ds new_ds uid ft2 han
        rw [hlvl] at huid hft2
        subst hft2
        subst huid
        simp only [FilterTransform.addMergeNew, han] at hadd
        simp only [Bool.false_eq_true, if_false, if_true, Prod.mk.injEq,
          and_true] at hadd
        subst hadd
        constructor
        · simp [List.lookup]
        · rw [FilterTransform.reverse, if_pos (by simp [qrAppend])]
          simp only [FilterTransform.reverseLoop]
          rw [recordMappings_self]
          simp [List.lookup, qrAppend, hnd, FilterTransform.reverseLoop]

/-- Engine whose `old` already holds `dsA` and whose `new` is empty, so
re-adding `dsA` is a pre-existing duplicate whose filtered output merges
cleanly. -/
def ftW2 : FilterTransform :=
  { old := ⟨.patient, [dsA]⟩
    new := ⟨.patient, []⟩
    new_to_old := fun _ => []
    fixed_inconsistent := []
    fixed_duplicates := []
    fully_invertible := LazySet.empty }

/-- C5 witness: after successfully adding the pre-existing duplicate `dsA`
with filtered output `dsB`, the engine records it in `fixed_duplicates` and
`reverse` on the subset holding `dsB` surfaces `dsA` in the bundle's
duplicate list. -/
theorem filterTransform_fixed_surfacing_witness :
    List.lookup (get_uid ftW2.new.level dsB)
        (FilterTransform.add ftW2 dsA (some dsB)).1.fixed_duplicates = some dsA ∧
      FilterTransform.reverse (FilterTransform.add ftW2 dsA (some dsB)).1
          ⟨ftW2.new.level, [dsB]⟩ =
        .ok ⟨⟨ftW2.new.level, []⟩, [], [dsA]⟩ :=
  (filterTransform_fixed_surfacing ftW2 (FilterTransform.add ftW2 dsA (some dsB)).1
      dsA dsB rfl rfl).1 (by decide) (by decide)

end Dcm
